import Mathlib

/-!
Verification of the functorch DynamicLayer core (functorch/csrc/DynamicLayer.cpp).

The development shallowly embeds the file's data model and operations:
* dispatch keys and thread-local dispatch key sets (`DispatchKey`,
  `DispatchKeySet`, `LocalDispatchKeySet`),
* the per-thread layer stack, the process-wide liveness registry (a map from
  level to a shared boolean flag, modelled as an arena `flags : List Bool`
  addressed by handles), bundled into `FuncTorchState`,
* stack/registry operations (`pushDynamicLayer`, `popDynamicLayer`,
  `initAndPushDynamicLayer`, `popDynamicLayerAndDeleteMetadata`, ...),
* tensors, tensor wrappers and the boundary-handler argument transformations
  (`unwrapIfDead`, `materializeGradWrappers`, `foreachTensorInplace`, the
  back-fallback unwrap, `isInplaceOp`, `checkForInvalidMutationOnCaptures`),
* the dispatch-keyset arithmetic of the two boundary fallbacks.

C++ `TORCH_INTERNAL_ASSERT` / `TORCH_CHECK` failures are modelled by the
`Except FtError` monad (explicit `match`es are used so proofs stay plain).
-/

/-- The dispatch keys that appear in DynamicLayer.cpp.  `Autograd` and
`AutogradCPU` stand for the members of `autograd_dispatch_keyset`; `CPU` is a
representative backend key so that a thread's key set can carry content this
core never touches. -/
inductive DispatchKey where
  | DynamicLayerFrontMode
  | DynamicLayerBackMode
  | GradWrapper
  | Batched
  | ADInplaceOrView
  | Autograd
  | AutogradCPU
  | VmapMode
  | CPU
  | Undefined
deriving DecidableEq, Repr, Fintype

/-- A c10 DispatchKeySet: a bitset over dispatch keys, one Bool per key of the
modelled universe. -/
structure DispatchKeySet where
  dynamicLayerFrontMode : Bool
  dynamicLayerBackMode : Bool
  gradWrapper : Bool
  batched : Bool
  adInplaceOrView : Bool
  autograd : Bool
  autogradCPU : Bool
  vmapMode : Bool
  cpu : Bool
  undefinedKey : Bool
deriving DecidableEq, Repr

/-- Membership of a key in a keyset. -/
def DispatchKeySet.has (s : DispatchKeySet) (k : DispatchKey) : Bool :=
  match k with
  | .DynamicLayerFrontMode => s.dynamicLayerFrontMode
  | .DynamicLayerBackMode => s.dynamicLayerBackMode
  | .GradWrapper => s.gradWrapper
  | .Batched => s.batched
  | .ADInplaceOrView => s.adInplaceOrView
  | .Autograd => s.autograd
  | .AutogradCPU => s.autogradCPU
  | .VmapMode => s.vmapMode
  | .CPU => s.cpu
  | .Undefined => s.undefinedKey

/-- Set membership of one key in a keyset. -/
def DispatchKeySet.setKey (s : DispatchKeySet) (k : DispatchKey) (b : Bool) :
    DispatchKeySet :=
  match k with
  | .DynamicLayerFrontMode => { s with dynamicLayerFrontMode := b }
  | .DynamicLayerBackMode => { s with dynamicLayerBackMode := b }
  | .GradWrapper => { s with gradWrapper := b }
  | .Batched => { s with batched := b }
  | .ADInplaceOrView => { s with adInplaceOrView := b }
  | .Autograd => { s with autograd := b }
  | .AutogradCPU => { s with autogradCPU := b }
  | .VmapMode => { s with vmapMode := b }
  | .CPU => { s with cpu := b }
  | .Undefined => { s with undefinedKey := b }

def DispatchKeySet.add (s : DispatchKeySet) (k : DispatchKey) : DispatchKeySet :=
  s.setKey k true

def DispatchKeySet.remove (s : DispatchKeySet) (k : DispatchKey) : DispatchKeySet :=
  s.setKey k false

def DispatchKeySet.empty : DispatchKeySet :=
  ⟨false, false, false, false, false, false, false, false, false, false⟩

def DispatchKeySet.ofList (ks : List DispatchKey) : DispatchKeySet :=
  ks.foldl DispatchKeySet.add DispatchKeySet.empty

def DispatchKeySet.union (a b : DispatchKeySet) : DispatchKeySet :=
  ⟨a.dynamicLayerFrontMode || b.dynamicLayerFrontMode,
   a.dynamicLayerBackMode || b.dynamicLayerBackMode,
   a.gradWrapper || b.gradWrapper,
   a.batched || b.batched,
   a.adInplaceOrView || b.adInplaceOrView,
   a.autograd || b.autograd,
   a.autogradCPU || b.autogradCPU,
   a.vmapMode || b.vmapMode,
   a.cpu || b.cpu,
   a.undefinedKey || b.undefinedKey⟩

def DispatchKeySet.diff (a b : DispatchKeySet) : DispatchKeySet :=
  ⟨a.dynamicLayerFrontMode && !b.dynamicLayerFrontMode,
   a.dynamicLayerBackMode && !b.dynamicLayerBackMode,
   a.gradWrapper && !b.gradWrapper,
   a.batched && !b.batched,
   a.adInplaceOrView && !b.adInplaceOrView,
   a.autograd && !b.autograd,
   a.autogradCPU && !b.autogradCPU,
   a.vmapMode && !b.vmapMode,
   a.cpu && !b.cpu,
   a.undefinedKey && !b.undefinedKey⟩

/-- `autograd_dispatch_keyset` (external constant from c10). -/
def autograd_dispatch_keyset : DispatchKeySet :=
  DispatchKeySet.ofList [DispatchKey.Autograd, DispatchKey.AutogradCPU]

/-- `all_dynlayer_keyset` (DynamicLayer.cpp, lines 21-28). -/
def all_dynlayer_keyset : DispatchKeySet :=
  DispatchKeySet.union
    (DispatchKeySet.ofList
      [DispatchKey.DynamicLayerFrontMode, DispatchKey.DynamicLayerBackMode,
       DispatchKey.GradWrapper, DispatchKey.Batched, DispatchKey.ADInplaceOrView])
    autograd_dispatch_keyset

/-- A thread's local dispatch key set: an included and an excluded bitset. -/
structure LocalDispatchKeySet where
  included_ : DispatchKeySet
  excluded_ : DispatchKeySet
deriving DecidableEq, Repr

/-- `c10::impl::tls_set_dispatch_key_included`: set membership of one key in
the thread's included set. -/
def tls_set_dispatch_key_included (tls : LocalDispatchKeySet) (k : DispatchKey)
    (b : Bool) : LocalDispatchKeySet :=
  { tls with included_ := tls.included_.setKey k b }

/-- Errors: internal-consistency assertion failures (`TORCH_INTERNAL_ASSERT`)
and the single user-facing `TORCH_CHECK` of this file (the captured-mutation
error of `checkForInvalidMutationOnCaptures`). -/
inductive FtError where
  | internalAssert (msg : String)
  | capturedMutation
deriving DecidableEq, Repr

instance {ε α : Type} [DecidableEq ε] [DecidableEq α] : DecidableEq (Except ε α)
  | .error a, .error b =>
    if h : a = b then isTrue (by rw [h]) else isFalse (by intro c; cases c; exact h rfl)
  | .error _, .ok _ => isFalse (by intro c; cases c)
  | .ok _, .error _ => isFalse (by intro c; cases c)
  | .ok a, .ok b =>
    if h : a = b then isTrue (by rw [h]) else isFalse (by intro c; cases c; exact h rfl)

inductive RandomnessType where
  | Error
  | SameRandomness
  | DifferentRandomness
deriving DecidableEq, Repr

/-- `DynamicLayer` (DynamicLayer.cpp, lines 35-54): immutable record describing
one active transform instance. -/
structure DynamicLayer where
  key_ : DispatchKey
  layerId_ : Int
  batchSize_ : Option Int
  randomness_ : Option RandomnessType
  prevGradMode_ : Option Bool
  prevFwdGradMode_ : Option Bool
  prevLocalDispatchKeySet_ : LocalDispatchKeySet
deriving DecidableEq

def DynamicLayer.key (l : DynamicLayer) : DispatchKey := l.key_

def DynamicLayer.layerId (l : DynamicLayer) : Int := l.layerId_

def DynamicLayer.prevGradMode (l : DynamicLayer) : Option Bool := l.prevGradMode_

def DynamicLayer.prevFwdGradMode (l : DynamicLayer) : Option Bool := l.prevFwdGradMode_

def DynamicLayer.prevLocalDispatchKeySet (l : DynamicLayer) : LocalDispatchKeySet :=
  l.prevLocalDispatchKeySet_

/-- The state this file manipulates: the thread-local dynamic layer stack
(`dynamicLayerStackAccessor()`, head of the list = back of the C++ vector =
top of the stack), the process-wide `DynmetaData` registry (level to flag
handle), the arena of shared liveness flags (a fresh cell is appended for each
`std::make_shared<bool>`), the thread's local dispatch key set, and the grad /
forward-grad mode flags toggled by `AutoGradMode` / `AutoFwGradMode`. -/
structure FuncTorchState where
  stack : List DynamicLayer
  registry : List (Int × Nat)
  flags : List Bool
  tls : LocalDispatchKeySet
  gradMode : Bool
  fwdGradMode : Bool
deriving DecidableEq

/-- `setDynamicLayerFrontBackKeysIncluded` (lines 30-33). -/
def setDynamicLayerFrontBackKeysIncluded (st : FuncTorchState) (included : Bool) :
    FuncTorchState :=
  { st with
    tls := tls_set_dispatch_key_included
      (tls_set_dispatch_key_included st.tls DispatchKey.DynamicLayerFrontMode included)
      DispatchKey.DynamicLayerBackMode included }

/-- `getLifeHandleForLevel` (lines 135-139): registry lookup, asserting the
level is alive. -/
def getLifeHandleForLevel (registry : List (Int × Nat)) (level : Int) :
    Except FtError Nat :=
  match registry.find? (fun p => p.1 == level) with
  | some p => .ok p.2
  | none => .error (.internalAssert "level should be alive")

/-- `areTransformsActive` (lines 157-160): the registry is non-empty. -/
def areTransformsActive (st : FuncTorchState) : Bool :=
  !st.registry.isEmpty

/-- `getDynamicLayerStack` (lines 149-151). -/
def getDynamicLayerStack (st : FuncTorchState) : List DynamicLayer :=
  st.stack

/-- `setDynamicLayerStack` (lines 153-155): wholesale replacement of the
thread-local stack; nothing else is touched. -/
def setDynamicLayerStack (st : FuncTorchState) (s : List DynamicLayer) :
    FuncTorchState :=
  { st with stack := s }

/-- `maybeCurrentDynamicLayer` (lines 141-147). -/
def maybeCurrentDynamicLayer (st : FuncTorchState) : Option DynamicLayer :=
  st.stack.head?

/-- `popDynamicLayer` (lines 162-179): assert non-empty, take the back, assert
its key is defined, pop; turn the front/back mode keys off on the 1-to-0
transition. -/
def popDynamicLayer (st : FuncTorchState) :
    Except FtError (DynamicLayer × FuncTorchState) :=
  match st.stack with
  | [] => .error (.internalAssert "dynamicLayerStack.size() > 0")
  | result :: rest =>
    if result.key_ = DispatchKey.Undefined then
      .error (.internalAssert "result.key() != DispatchKey::Undefined")
    else
      let st1 : FuncTorchState := { st with stack := rest }
      let st2 := if rest.isEmpty then setDynamicLayerFrontBackKeysIncluded st1 false else st1
      .ok (result, st2)

/-- `pushDynamicLayer` (lines 181-192): the new layer's id must equal
1 + (stack size before the push); turn the front/back mode keys on on the
0-to-1 transition. -/
def pushDynamicLayer (st : FuncTorchState) (dynamic_layer : DynamicLayer) :
    Except FtError (Int × FuncTorchState) :=
  let layerId : Int := 1 + st.stack.length
  if layerId = dynamic_layer.layerId_ then
    let st1 : FuncTorchState := { st with stack := dynamic_layer :: st.stack }
    let st2 := if layerId = 1 then setDynamicLayerFrontBackKeysIncluded st1 true else st1
    .ok (layerId, st2)
  else
    .error (.internalAssert "layerId == dynamic_layer.layerId()")

/-- The `DynamicLayer` constructor (lines 35-54): captures the thread's current
local dispatch key set and asserts that an Autograd layer records at least one
of the surrounding grad-mode flags. -/
def DynamicLayer.construct (st : FuncTorchState) (key : DispatchKey) (layerId : Int)
    (batchSize : Option Int) (randomness : Option RandomnessType)
    (prev_grad_mode prev_fwd_grad_mode : Option Bool) :
    Except FtError DynamicLayer :=
  if key = DispatchKey.Autograd ∧ ¬(prev_grad_mode.isSome ∨ prev_fwd_grad_mode.isSome) then
    .error (.internalAssert "prev_grad_mode.has_value() || prev_fwd_grad_mode.has_value()")
  else
    .ok { key_ := key, layerId_ := layerId, batchSize_ := batchSize,
          randomness_ := randomness, prevGradMode_ := prev_grad_mode,
          prevFwdGradMode_ := prev_fwd_grad_mode,
          prevLocalDispatchKeySet_ := st.tls }

/-- `initAndPushDynamicLayer` (lines 194-214): construct a layer with id
1 + stack size, push it, and create its registry entry pointing at a fresh
shared liveness flag initialised to `true`. -/
def initAndPushDynamicLayer (st : FuncTorchState) (key : DispatchKey)
    (batch_size : Option Int) (randomness : Option RandomnessType)
    (prev_grad_mode prev_fwd_grad_mode : Option Bool) :
    Except FtError (Int × FuncTorchState) :=
  if key = DispatchKey.Autograd ∨ key = DispatchKey.Batched then
    let layerId : Int := 1 + st.stack.length
    match DynamicLayer.construct st key layerId batch_size randomness
        prev_grad_mode prev_fwd_grad_mode with
    | .error e => .error e
    | .ok new_layer =>
      match pushDynamicLayer st new_layer with
      | .error e => .error e
      | .ok (_, st1) =>
        if (st1.registry.find? (fun p => p.1 == layerId)).isSome then
          .error (.internalAssert "data.find(layerId) == data.end()")
        else if key = DispatchKey.Autograd ∧
            ¬(prev_grad_mode.isSome ∨ prev_fwd_grad_mode.isSome) then
          .error (.internalAssert "prev_grad_mode.has_value() || prev_fwd_grad_mode.has_value()")
        else
          .ok (layerId,
            { st1 with registry := (layerId, st1.flags.length) :: st1.registry,
                       flags := st1.flags ++ [true] })
  else
    .error (.internalAssert "key == DispatchKey::Autograd || key == kBatchedKey")

/-- `popDynamicLayerAndDeleteMetadata` (lines 216-236): pop, then if the popped
level has a registry entry, flip its shared flag to false and erase the entry
(no-op when the entry is already absent). -/
def popDynamicLayerAndDeleteMetadata (st : FuncTorchState) :
    Except FtError (DynamicLayer × FuncTorchState) :=
  match popDynamicLayer st with
  | .error e => .error e
  | .ok (result, st1) =>
    let level := result.layerId_
    match st1.registry.find? (fun p => p.1 == level) with
    | none => .ok (result, st1)
    | some p =>
      .ok (result,
        { st1 with flags := st1.flags.set p.2 false,
                   registry := st1.registry.filter (fun q => q.1 != level) })

/-! ## Tensors, wrappers and the traversal utility -/

/-- Tensor-like values as this file observes them: the undefined sentinel, a
raw (plain) tensor identified by an id, or a `TensorWrapper` holding an inner
value, the `level` tag of the layer that produced it, and a non-owning handle
into the arena of shared liveness flags. -/
inductive Tensor where
  | undefined
  | raw (id : Nat)
  | wrapped (value : Tensor) (level : Int) (lifeHandle : Nat)
deriving DecidableEq, Repr

def Tensor.defined : Tensor → Bool
  | .undefined => false
  | _ => true

/-- `maybeGetTensorWrapper`: the wrapper's value, level and liveness handle, or
none when the tensor is not a wrapper. -/
def maybeGetTensorWrapper : Tensor → Option (Tensor × Int × Nat)
  | .wrapped v l h => some (v, l, h)
  | _ => none

/-- Modelled from the spec: the external value-wrapping collaborator's
`isAlive(wrapped)` (TensorWrapper lives outside this file). A wrapper is alive
iff the shared liveness flag it references is true; a handle outside the arena
reads as dead. -/
def wrapperIsAlive (flags : List Bool) (lifeHandle : Nat) : Bool :=
  flags.getD lifeHandle false

/-- `unwrapIfDead` (lines 258-267): a non-wrapper or a live wrapper passes
through; a dead wrapper is replaced by its raw value. -/
def unwrapIfDead (flags : List Bool) (tensor : Tensor) : Tensor :=
  match maybeGetTensorWrapper tensor with
  | none => tensor
  | some (value, _, lifeHandle) =>
    if wrapperIsAlive flags lifeHandle then tensor else value

/-- Modelled from the spec: the external `wrap(raw, level) -> wrapped`
(TensorWrapper lives outside this file). Produces a new wrapper tagged with
`level` and a non-owning reference to that level's liveness flag, which it
obtains through this file's `getLifeHandleForLevel`. -/
def makeTensorWrapper (registry : List (Int × Nat)) (tensor : Tensor) (level : Int) :
    Except FtError Tensor :=
  match getLifeHandleForLevel registry level with
  | .error e => .error e
  | .ok h => .ok (.wrapped tensor level h)

/-- `materializeGradWrappers` (lines 238-256): for an Autograd top layer, wrap
unwrapped tensors and tensors wrapped below the current level at the current
level; a tensor wrapped above the current level fails the escape assertion. -/
def materializeGradWrappers (registry : List (Int × Nat)) (tensor : Tensor)
    (dynlayerStack : List DynamicLayer) : Except FtError Tensor :=
  if !tensor.defined then .ok tensor else
  match dynlayerStack with
  | [] => .error (.internalAssert "back() called on an empty dynamicLayerStack")
  | top :: _ =>
    if top.key_ ≠ DispatchKey.Autograd then .ok tensor else
    let cur_level := top.layerId_
    match maybeGetTensorWrapper tensor with
    | none => makeTensorWrapper registry tensor cur_level
    | some (_, l, _) =>
      if cur_level < l then .error (.internalAssert "escaped?")
      else if l = cur_level then
        if tensor.defined then .ok tensor
        else .error (.internalAssert "tensor.defined()")
      else makeTensorWrapper registry tensor cur_level

/-- The `maybeTransformGradWrappers` lambda of `dynamicLayerFrontFallback`
(lines 453-457): unwrap dead grad wrappers, materialize live ones. -/
def maybeTransformGradWrappers (registry : List (Int × Nat)) (flags : List Bool)
    (dynlayerStack : List DynamicLayer) (tensor : Tensor) : Except FtError Tensor :=
  materializeGradWrappers registry (unwrapIfDead flags tensor) dynlayerStack

/-- Entries of the boxed call stack (`torch::jit::Stack` IValues), as far as
this file inspects them. -/
inductive IValue where
  | tensor (t : Tensor)
  | tensorList (ts : List Tensor)
  | list (elems : List IValue)
  | genericDict
  | scalar (n : Int)

/-- Error-propagating map over a list. -/
def mapExcept (f : α → Except FtError β) : List α → Except FtError (List β)
  | [] => .ok []
  | a :: as =>
    match f a with
    | .error e => .error e
    | .ok b =>
      match mapExcept f as with
      | .error e => .error e
      | .ok bs => .ok (b :: bs)

/-- One iteration of the `foreachTensorInplace` loop body (lines 274-311):
peek inside generic lists (replacing tensor elements only), map over tensor
lists, fail on dictionaries, replace a plain tensor (with the definedness
sanity check), and leave anything else untouched. -/
def transformIValue (func : Tensor → Except FtError Tensor) (ivalue : IValue) :
    Except FtError IValue :=
  match ivalue with
  | .list elems =>
    match mapExcept (fun e =>
        match e with
        | .tensor t =>
          match func t with
          | .error err => .error err
          | .ok t2 => .ok (IValue.tensor t2)
        | e => .ok e) elems with
    | .error e => .error e
    | .ok elems2 => .ok (.list elems2)
  | .tensorList ts =>
    match mapExcept func ts with
    | .error e => .error e
    | .ok ts2 => .ok (.tensorList ts2)
  | .genericDict => .error (.internalAssert "No operators can accept GenericDict")
  | .tensor value =>
    match func value with
    | .error e => .error e
    | .ok replacement =>
      if value.defined && !replacement.defined then
        .error (.internalAssert "args[idx].toTensor().defined()")
      else .ok (.tensor replacement)
  | iv => .ok iv

/-- The index-driven loop of `foreachTensorInplace`: `n` remaining iterations
starting at index `idx`. -/
def foreachLoop (func : Tensor → Except FtError Tensor) :
    List IValue → Nat → Nat → Except FtError (List IValue)
  | args, _, 0 => .ok args
  | args, idx, n + 1 =>
    match args.get? idx with
    | none => .error (.internalAssert "index out of range")
    | some iv =>
      match transformIValue func iv with
      | .error e => .error e
      | .ok iv2 => foreachLoop func (args.set idx iv2) (idx + 1) n

/-- `foreachTensorInplace` (lines 269-312): apply `func` to every tensor-like
element of `args[b..e)`, in place. -/
def foreachTensorInplace (args : List IValue) (b e : Nat)
    (func : Tensor → Except FtError Tensor) : Except FtError (List IValue) :=
  if b ≤ e then foreachLoop func args b (e - b)
  else .error (.internalAssert "begin <= end")

/-! ## Operation schemas and the mutation-safety check -/

/-- Alias annotation of a schema argument or return: the alias set it names
(`(a)` in schema notation) and whether it is marked writable (`(a!)`). -/
structure AliasInfo where
  aliasSet : Nat
  isWrite : Bool
deriving DecidableEq, Repr

structure SchemaArgument where
  alias_info : Option AliasInfo
deriving DecidableEq, Repr

structure FunctionSchema where
  is_mutable : Bool
  arguments : List SchemaArgument
  returns : List SchemaArgument
deriving DecidableEq, Repr

/-- `isInplaceOp` (lines 340-359): mutable schema with a single return, first
argument writable-and-aliased, no other argument aliased, and the return value
carrying a writable alias annotation. -/
def isInplaceOp (schema : FunctionSchema) : Bool :=
  match schema.returns with
  | [ret] =>
    schema.is_mutable &&
    (match schema.arguments with
     | [] => false
     | first :: rest =>
       (match first.alias_info with
        | some first_arg_alias_info => first_arg_alias_info.isWrite
        | none => false) &&
       rest.all (fun arg => arg.alias_info.isNone) &&
       (match ret.alias_info with
        | some return_alias_info => return_alias_info.isWrite
        | none => false))
  | _ => false

/-- The in-place classification exactly as the specification words it: mutable
schema with a single return, first argument marked writable-and-aliased, no
other argument aliased, and the return value aliasing THAT SAME argument (the
same alias set) as writable. Stated for comparison with the source's
`isInplaceOp`, which does not compare the alias sets. -/
def isInplaceOpSpec (schema : FunctionSchema) : Bool :=
  match schema.returns with
  | [ret] =>
    schema.is_mutable &&
    (match schema.arguments with
     | [] => false
     | first :: rest =>
       (match first.alias_info, ret.alias_info with
        | some firstInfo, some retInfo =>
          firstInfo.isWrite && retInfo.isWrite && (retInfo.aliasSet == firstInfo.aliasSet)
        | _, _ => false) &&
       rest.all (fun arg => arg.alias_info.isNone))
  | _ => false

/-- `torch::jit::last(stack, n)`: the last `n` entries of the boxed stack. -/
def jitLast (stack : List IValue) (n : Nat) : List IValue :=
  stack.drop (stack.length - n)

/-- `checkForInvalidMutationOnCaptures` (lines 361-384): for an Autograd top
layer and an in-place op, the mutated argument (after unwrapping a dead
wrapper) must be wrapped at exactly the current level, else the user-facing
captured-mutation error is raised. -/
def checkForInvalidMutationOnCaptures (flags : List Bool) (schema : FunctionSchema)
    (stack : List IValue) (dynamicLayerStack : List DynamicLayer) :
    Except FtError Unit :=
  match dynamicLayerStack with
  | [] => .error (.internalAssert "back() called on an empty dynamicLayerStack")
  | top :: _ =>
    if top.key_ ≠ DispatchKey.Autograd then .ok () else
    if !isInplaceOp schema then .ok () else
    match (jitLast stack schema.arguments.length).head? with
    | none => .error (.internalAssert "args[0] out of range")
    | some arg0 =>
      match arg0 with
      | .tensor t =>
        let mutated_arg := unwrapIfDead flags t
        let cur_level := top.layerId_
        match maybeGetTensorWrapper mutated_arg with
        | some (_, l, _) =>
          if l = cur_level then .ok () else .error .capturedMutation
        | none => .error .capturedMutation
      | _ => .error (.internalAssert "args[0].toTensor()")

/-! ## Dispatch keyset selection and the back boundary handler -/

/-- `keysForEnteringDynamicLayer` (lines 386-397). -/
def keysForEnteringDynamicLayer (key : DispatchKey) : Except FtError DispatchKeySet :=
  if key = DispatchKey.Batched then
    .ok (DispatchKeySet.ofList [DispatchKey.Batched])
  else if key = DispatchKey.Autograd then
    .ok (autograd_dispatch_keyset.add DispatchKey.ADInplaceOrView)
  else
    .error (.internalAssert "Unsupported key")

/-- `zeroedOutDynamicLayerKeyset` (lines 413-418): every dynlayer key excluded
and not included. -/
def zeroedOutDynamicLayerKeyset (tls : LocalDispatchKeySet) : LocalDispatchKeySet :=
  { excluded_ := tls.excluded_.union all_dynlayer_keyset,
    included_ := tls.included_.diff all_dynlayer_keyset }

/-- `keysetToTurnOnSubsystem` (lines 422-428). -/
def keysetToTurnOnSubsystem (tls : LocalDispatchKeySet) (key : DispatchKey) :
    Except FtError LocalDispatchKeySet :=
  match keysForEnteringDynamicLayer key with
  | .error e => .error e
  | .ok enter =>
    let keyset := zeroedOutDynamicLayerKeyset tls
    let keyset := { keyset with
      excluded_ := (keyset.excluded_.diff enter).remove DispatchKey.DynamicLayerBackMode }
    .ok { keyset with
      included_ := keyset.included_.add DispatchKey.DynamicLayerBackMode }

/-- `keysetToReturnToDynamicLayerFront` (lines 432-437). -/
def keysetToReturnToDynamicLayerFront (tls : LocalDispatchKeySet) :
    LocalDispatchKeySet :=
  { excluded_ := tls.excluded_.remove DispatchKey.DynamicLayerFrontMode,
    included_ := tls.included_.add DispatchKey.DynamicLayerFrontMode }

/-- The configuration `dynamicLayerBackFallback` re-issues the call under
(lines 576-582), as a function of the state at entry of the handler: the
`WithoutTop` guard has popped the top layer, so with one layer at entry the
stack "is now empty" and the layer's saved configuration is installed;
otherwise the next dispatch is routed back to DynamicLayerFrontMode. -/
def backFallbackRedispatchTLS (st : FuncTorchState) :
    Except FtError LocalDispatchKeySet :=
  match st.stack with
  | [] => .error (.internalAssert "back() called on an empty dynamicLayerStack")
  | top :: rest =>
    if rest.isEmpty then .ok top.prevLocalDispatchKeySet_
    else .ok (keysetToReturnToDynamicLayerFront st.tls)

/-- The `unwrap` lambda of `dynamicLayerBackFallback` (lines 508-522): unwrap
a wrapper at exactly the current level to its value; assert no wrapper sits
above the current level; pass everything else through. -/
def backFallbackUnwrap (cur_level : Int) (tensor : Tensor) : Except FtError Tensor :=
  if !tensor.defined then .ok tensor else
  match maybeGetTensorWrapper tensor with
  | none => .ok tensor
  | some (value, tensor_wrapper_level, _) =>
    if cur_level < tensor_wrapper_level then
      .error (.internalAssert "tensor_wrapper_level <= cur_level")
    else if tensor_wrapper_level = cur_level then .ok value
    else .ok tensor

/-- Steps 1 and 2 of `dynamicLayerBackFallback` (lines 546-556): for an
Autograd layer, push a copy of the argument sub-range onto the boxed stack and
unwrap, in the duplicate only, every tensor wrapped at the current level. -/
def backFallbackStep12 (cur_key : DispatchKey) (cur_level : Int) (args_size : Nat)
    (stack : List IValue) : Except FtError (List IValue) :=
  if cur_key = DispatchKey.Autograd then
    let front := stack.length - args_size
    let dup := stack ++ ((stack.drop front).take args_size)
    foreachTensorInplace dup (dup.length - args_size) dup.length
      (backFallbackUnwrap cur_level)
  else .ok stack

/-- The scoped core of `dynamicLayerBackFallback` (lines 497-506 and 558-593)
around the re-dispatched inner call: snapshot the top layer, pop it via the
`WithoutTop` guard, install the grad-mode overrides and the re-dispatch
configuration, run the inner call, then run every destructor in reverse
construction order - whether or not the inner call failed.  `inner` returns
its final state together with `some e` when it throws; a failed assertion in
the `WithoutTop` destructor (C++ would terminate) is reported as an internal
error. -/
def backFallbackScopedCall (st : FuncTorchState)
    (inner : FuncTorchState → FuncTorchState × Option FtError) :
    FuncTorchState × Option FtError :=
  match st.stack with
  | [] => (st, some (.internalAssert "back() called on an empty dynamicLayerStack"))
  | top :: _ =>
    let cur_key := top.key_
    let prev_grad_mode := top.prevGradMode_
    let prev_fwd_grad_mode := top.prevFwdGradMode_
    if cur_key = DispatchKey.Autograd ∧
        ¬(prev_grad_mode.isSome ∨ prev_fwd_grad_mode.isSome) then
      (st, some (.internalAssert "prev_grad_mode.has_value() || prev_fwd_grad_mode.has_value()"))
    else
      match popDynamicLayer st with
      | .error e => (st, some e)
      | .ok (layer, st1) =>
        let savedGrad := st1.gradMode
        let gradGuardOn := cur_key = DispatchKey.Autograd ∧ prev_grad_mode = some false
        let st2 := if gradGuardOn then { st1 with gradMode := false } else st1
        let savedFwd := st2.fwdGradMode
        let fwdGuardOn := cur_key = DispatchKey.Autograd ∧ prev_fwd_grad_mode = some false
        let st3 := if fwdGuardOn then { st2 with fwdGradMode := false } else st2
        let savedTLS := st3.tls
        let tlsGuardOn := st3.stack.isEmpty
        let st4 :=
          if tlsGuardOn then { st3 with tls := top.prevLocalDispatchKeySet_ }
          else { st3 with tls := keysetToReturnToDynamicLayerFront st3.tls }
        let innerResult := inner st4
        let st5 := innerResult.1
        let st6 := if tlsGuardOn then { st5 with tls := savedTLS } else st5
        let st7 := if fwdGuardOn then { st6 with fwdGradMode := savedFwd } else st6
        let st8 := if gradGuardOn then { st7 with gradMode := savedGrad } else st7
        match pushDynamicLayer st8 layer with
        | .error _ => (st8, some (.internalAssert "assertion failed in WithoutTop dtor"))
        | .ok (_, st9) => (st9, innerResult.2)

/-! ## Operation sequences (the single-thread model) -/

/-- The public operations exposed to transform entry points: `push` is
`initAndPushDynamicLayer`, `pop` is `popDynamicLayerAndDeleteMetadata`. -/
inductive FtOp where
  | push (key : DispatchKey) (batchSize : Option Int)
      (randomness : Option RandomnessType) (prevGradMode prevFwdGradMode : Option Bool)
  | pop

def runOp (st : FuncTorchState) : FtOp → Except FtError FuncTorchState
  | .push key batchSize randomness prevGradMode prevFwdGradMode =>
    match initAndPushDynamicLayer st key batchSize randomness prevGradMode prevFwdGradMode with
    | .error e => .error e
    | .ok (_, st2) => .ok st2
  | .pop =>
    match popDynamicLayerAndDeleteMetadata st with
    | .error e => .error e
    | .ok (_, st2) => .ok st2

def runOps (st : FuncTorchState) : List FtOp → Except FtError FuncTorchState
  | [] => .ok st
  | op :: ops =>
    match runOp st op with
    | .error e => .error e
    | .ok st2 => runOps st2 ops

/-- A fresh thread state: empty stack, empty registry and flag arena, a given
thread-local dispatch key set, grad modes on. -/
def initState (tls0 : LocalDispatchKeySet) : FuncTorchState :=
  { stack := [], registry := [], flags := [], tls := tls0,
    gradMode := true, fwdGradMode := true }

/-- The level sequence `[n, n-1, ..., 1]` of a well-formed stack of size `n`
(top first). -/
def levelList : Nat → List Int
  | 0 => []
  | n + 1 => ((n : Int) + 1) :: levelList n

/-! ## Derived notions used by the statements -/

/-- The pure effect of `setDynamicLayerFrontBackKeysIncluded` on a
`LocalDispatchKeySet`. -/
def setFrontBackIncluded (tls : LocalDispatchKeySet) (b : Bool) : LocalDispatchKeySet :=
  tls_set_dispatch_key_included
    (tls_set_dispatch_key_included tls DispatchKey.DynamicLayerFrontMode b)
    DispatchKey.DynamicLayerBackMode b

/-- Structural invariant of reachable states: the stack's levels read
`n, n-1, ..., 1` from the top, and the registry holds exactly those levels. -/
def StackRegInv (st : FuncTorchState) : Prop :=
  st.stack.map DynamicLayer.layerId_ = levelList st.stack.length ∧
  st.registry.map Prod.fst = levelList st.stack.length

/-- A thread whose initial key set has both boundary-handler keys off. -/
def GoodInitTLS (tls0 : LocalDispatchKeySet) : Prop :=
  tls0.included_.dynamicLayerFrontMode = false ∧
  tls0.included_.dynamicLayerBackMode = false

/-- Capability invariant of reachable states: the thread's key set is the
initial one with the two boundary-handler keys set iff the stack is non-empty,
and the bottom layer (when present) captured exactly the initial key set. -/
def TLSInv (tls0 : LocalDispatchKeySet) (st : FuncTorchState) : Prop :=
  st.tls = setFrontBackIncluded tls0 (!st.stack.isEmpty) ∧
  ∀ l, st.stack.getLast? = some l → l.prevLocalDispatchKeySet_ = tls0

/-- The pure per-tensor effect of the back-fallback `unwrap` lambda on tensors
that do not trip the escape assertion. -/
def pureBackUnwrap (cur_level : Int) : Tensor → Tensor
  | .wrapped value l h => if l = cur_level then value else .wrapped value l h
  | t => t

/-- Apply a pure tensor transformation to every tensor-like element of an
IValue, exactly where `foreachTensorInplace` applies its function. -/
def mapIValueTensors (f : Tensor → Tensor) : IValue → IValue
  | .tensor t => .tensor (f t)
  | .tensorList ts => .tensorList (ts.map f)
  | .list es => .list (es.map (fun e =>
      match e with
      | .tensor t => .tensor (f t)
      | e => e))
  | iv => iv

/-- A tensor inside a list position is benign for the back-fallback unwrap iff
its wrapper level (if any) does not exceed the current level. -/
def goodListTensor (cur_level : Int) : Tensor → Bool
  | .wrapped _ l _ => decide (l ≤ cur_level)
  | _ => true

/-- A tensor in a plain position additionally satisfies the definedness sanity
check of `foreachTensorInplace` after unwrapping. -/
def goodPlainTensor (cur_level : Int) : Tensor → Bool
  | .wrapped v l _ => decide (l ≤ cur_level) && (!(l == cur_level) || v.defined)
  | _ => true

/-- Arguments on which the back-fallback duplicate-and-unwrap step completes
without an internal assertion. -/
def goodBackArg (cur_level : Int) : IValue → Bool
  | .tensor t => goodPlainTensor cur_level t
  | .tensorList ts => ts.all (goodListTensor cur_level)
  | .list es => es.all (fun e =>
      match e with
      | .tensor t => goodListTensor cur_level t
      | _ => true)
  | .genericDict => false
  | .scalar _ => true

/-! ## Concrete fixtures for witnesses and counterexamples -/

/-- An initial thread key set with nothing included or excluded. -/
def tlsZero : LocalDispatchKeySet :=
  { included_ := DispatchKeySet.empty, excluded_ := DispatchKeySet.empty }

/-- The layer produced by pushing a grad transform onto a fresh thread. -/
def layerA1 : DynamicLayer :=
  { key_ := DispatchKey.Autograd, layerId_ := 1, batchSize_ := none,
    randomness_ := none, prevGradMode_ := some true, prevFwdGradMode_ := none,
    prevLocalDispatchKeySet_ := tlsZero }

/-- The state of a fresh thread after pushing one grad transform. -/
def stW1 : FuncTorchState :=
  { stack := [layerA1], registry := [(1, 0)], flags := [true],
    tls := setFrontBackIncluded tlsZero true, gradMode := true, fwdGradMode := true }

/-- A second layer (vmap) on top of `stW1`. -/
def layerB2 : DynamicLayer :=
  { key_ := DispatchKey.Batched, layerId_ := 2, batchSize_ := some 3,
    randomness_ := some RandomnessType.Error, prevGradMode_ := none,
    prevFwdGradMode_ := none,
    prevLocalDispatchKeySet_ := setFrontBackIncluded tlsZero true }

/-- The state of a fresh thread after pushing a grad then a vmap transform. -/
def stW2 : FuncTorchState :=
  { stack := [layerB2, layerA1], registry := [(2, 1), (1, 0)], flags := [true, true],
    tls := setFrontBackIncluded tlsZero true, gradMode := true, fwdGradMode := true }

/-- Schema of a canonical in-place op, `add_(Tensor(a!) self, Tensor other)`:
first argument writable in alias set 0, return writable in alias set 0. -/
def schemaInplace : FunctionSchema :=
  { is_mutable := true,
    arguments := [{ alias_info := some { aliasSet := 0, isWrite := true } },
                  { alias_info := none }],
    returns := [{ alias_info := some { aliasSet := 0, isWrite := true } }] }

/-- A mutable schema whose return carries a writable alias annotation naming a
DIFFERENT alias set than the first argument: `f(Tensor(a!) x) -> Tensor(b!)`.
The source's `isInplaceOp` accepts it; the specification's definition does
not. -/
def schemaMismatch : FunctionSchema :=
  { is_mutable := true,
    arguments := [{ alias_info := some { aliasSet := 0, isWrite := true } }],
    returns := [{ alias_info := some { aliasSet := 1, isWrite := true } }] }

/-! ## Helper lemmas -/

theorem setFrontBackIncluded_setFrontBackIncluded (t : LocalDispatchKeySet) (b c : Bool) :
    setFrontBackIncluded (setFrontBackIncluded t b) c = setFrontBackIncluded t c := by
  obtain ⟨inc, exc⟩ := t
  obtain ⟨f1, f2, f3, f4, f5, f6, f7, f8, f9, f10⟩ := inc
  rfl

theorem setFrontBackIncluded_id (t : LocalDispatchKeySet) (b : Bool)
    (h1 : t.included_.dynamicLayerFrontMode = b)
    (h2 : t.included_.dynamicLayerBackMode = b) :
    setFrontBackIncluded t b = t := by
  obtain ⟨inc, exc⟩ := t
  obtain ⟨f1, f2, f3, f4, f5, f6, f7, f8, f9, f10⟩ := inc
  dsimp only at h1 h2
  subst h1
  subst h2
  rfl

theorem setFrontBackIncluded_front (t : LocalDispatchKeySet) (b : Bool) :
    (setFrontBackIncluded t b).included_.dynamicLayerFrontMode = b := by
  obtain ⟨inc, exc⟩ := t
  obtain ⟨f1, f2, f3, f4, f5, f6, f7, f8, f9, f10⟩ := inc
  rfl

theorem setFrontBackIncluded_back (t : LocalDispatchKeySet) (b : Bool) :
    (setFrontBackIncluded t b).included_.dynamicLayerBackMode = b := by
  obtain ⟨inc, exc⟩ := t
  obtain ⟨f1, f2, f3, f4, f5, f6, f7, f8, f9, f10⟩ := inc
  rfl

theorem levelList_length (n : Nat) : (levelList n).length = n := by
  induction n with
  | zero => rfl
  | succ m ih => simp [levelList, ih]

theorem mem_levelList {x : Int} {n : Nat} : x ∈ levelList n ↔ 1 ≤ x ∧ x ≤ (n : Int) := by
  induction n with
  | zero => simp [levelList]; omega
  | succ m ih =>
    simp only [levelList, List.mem_cons, ih]
    constructor
    · rintro (h | ⟨h1, h2⟩) <;> constructor <;> push_cast <;> omega
    · rintro ⟨h1, h2⟩
      by_cases hx : x = (m : Int) + 1
      · left; omega
      · right; constructor <;> push_cast at h2 ⊢ <;> omega

theorem levelList_get? {n j : Nat} (h : j < n) :
    (levelList n).get? j = some ((n : Int) - (j : Int)) := by
  induction n generalizing j with
  | zero => omega
  | succ m ih =>
    cases j with
    | zero => simp [levelList]
    | succ i =>
      have hi : i < m := by omega
      simp only [levelList, List.get?_cons_succ, ih hi]
      congr 1
      push_cast
      ring

theorem construct_ok {st : FuncTorchState} {k : DispatchKey} {layerId : Int}
    {b : Option Int} {r : Option RandomnessType} {g f : Option Bool} {l : DynamicLayer}
    (h : DynamicLayer.construct st k layerId b r g f = .ok l) :
    l = { key_ := k, layerId_ := layerId, batchSize_ := b, randomness_ := r,
          prevGradMode_ := g, prevFwdGradMode_ := f,
          prevLocalDispatchKeySet_ := st.tls } := by
  unfold DynamicLayer.construct at h
  split at h
  · exact Except.noConfusion h
  · injection h with h2
    exact h2.symm

theorem pushDynamicLayer_ok {st : FuncTorchState} {l : DynamicLayer} {lev : Int}
    {st' : FuncTorchState} (h : pushDynamicLayer st l = .ok (lev, st')) :
    lev = 1 + (st.stack.length : Int) ∧ l.layerId_ = lev ∧
    st'.stack = l :: st.stack ∧ st'.registry = st.registry ∧
    st'.flags = st.flags ∧ st'.gradMode = st.gradMode ∧
    st'.fwdGradMode = st.fwdGradMode ∧
    st'.tls = (if st.stack.length = 0 then setFrontBackIncluded st.tls true else st.tls) := by
  simp only [pushDynamicLayer] at h
  split at h
  case isTrue hid =>
    injection h with h2
    injection h2 with hlev hst
    refine ⟨hlev.symm, ?_, ?_, ?_, ?_, ?_, ?_, ?_⟩
    · rw [← hid, hlev]
    · rw [← hst]; split <;> rfl
    · rw [← hst]; split <;> rfl
    · rw [← hst]; split <;> rfl
    · rw [← hst]; split <;> rfl
    · rw [← hst]; split <;> rfl
    · rw [← hst]
      split
      case isTrue hcc =>
        have hz : st.stack.length = 0 := by omega
        rw [if_pos hz]; rfl
      case isFalse hcc =>
        have hz : ¬st.stack.length = 0 := by omega
        rw [if_neg hz]
  case isFalse => exact Except.noConfusion h

theorem popDynamicLayer_ok {st : FuncTorchState} {l : DynamicLayer} {st' : FuncTorchState}
    (h : popDynamicLayer st = .ok (l, st')) :
    st.stack = l :: st'.stack ∧ l.key_ ≠ DispatchKey.Undefined ∧
    st'.registry = st.registry ∧ st'.flags = st.flags ∧
    st'.gradMode = st.gradMode ∧ st'.fwdGradMode = st.fwdGradMode ∧
    st'.tls = (if st'.stack.isEmpty then setFrontBackIncluded st.tls false else st.tls) := by
  unfold popDynamicLayer at h
  cases hstack : st.stack with
  | nil => rw [hstack] at h; exact Except.noConfusion h
  | cons top rest =>
    rw [hstack] at h
    simp only [] at h
    split at h
    case isTrue => exact Except.noConfusion h
    case isFalse hk =>
      injection h with h2
      injection h2 with htop hst
      have hrest : st'.stack = rest := by rw [← hst]; split <;> rfl
      refine ⟨?_, ?_, ?_, ?_, ?_, ?_, ?_⟩
      · rw [← htop, hrest]
      · rw [← htop]; exact hk
      · rw [← hst]; split <;> rfl
      · rw [← hst]; split <;> rfl
      · rw [← hst]; split <;> rfl
      · rw [← hst]; split <;> rfl
      · rw [hrest, ← hst]
        split <;> rfl

theorem initAndPush_ok {st : FuncTorchState} {k : DispatchKey} {b : Option Int}
    {r : Option RandomnessType} {g f : Option Bool} {lev : Int} {st' : FuncTorchState}
    (h : initAndPushDynamicLayer st k b r g f = .ok (lev, st')) :
    lev = 1 + (st.stack.length : Int) ∧
    st'.stack = { key_ := k, layerId_ := lev, batchSize_ := b, randomness_ := r,
                  prevGradMode_ := g, prevFwdGradMode_ := f,
                  prevLocalDispatchKeySet_ := st.tls } :: st.stack ∧
    st'.registry = (lev, st.flags.length) :: st.registry ∧
    st'.flags = st.flags ++ [true] ∧
    st'.gradMode = st.gradMode ∧ st'.fwdGradMode = st.fwdGradMode ∧
    (k = DispatchKey.Autograd ∨ k = DispatchKey.Batched) ∧
    st'.tls = (if st.stack.length = 0 then setFrontBackIncluded st.tls true else st.tls) := by
  simp only [initAndPushDynamicLayer] at h
  split at h
  case isFalse => exact Except.noConfusion h
  case isTrue hkey =>
    split at h
    case h_1 => exact Except.noConfusion h
    case h_2 new_layer heq =>
      have hlayer := construct_ok heq
      subst hlayer
      split at h
      case h_1 => exact Except.noConfusion h
      case h_2 p1 st1 heq2 =>
        obtain ⟨hlev1, hid1, hstk1, hreg1, hflg1, hg1, hf1, htls1⟩ :=
          pushDynamicLayer_ok heq2
        split at h
        case isTrue => exact Except.noConfusion h
        case isFalse hfind =>
          split at h
          case isTrue => exact Except.noConfusion h
          case isFalse hgrad =>
            injection h with h2
            injection h2 with hlev hst
            subst hst
            subst hlev
            refine ⟨rfl, hstk1, ?_, ?_, hg1, hf1, hkey, htls1⟩
            · show (_, st1.flags.length) :: st1.registry = _
              rw [hflg1, hreg1]
            · show st1.flags ++ [true] = _
              rw [hflg1]

theorem popDelete_ok {st : FuncTorchState} {l : DynamicLayer} {st' : FuncTorchState}
    (h : popDynamicLayerAndDeleteMetadata st = .ok (l, st')) :
    st.stack = l :: st'.stack ∧ l.key_ ≠ DispatchKey.Undefined ∧
    st'.gradMode = st.gradMode ∧ st'.fwdGradMode = st.fwdGradMode ∧
    st'.tls = (if st'.stack.isEmpty then setFrontBackIncluded st.tls false else st.tls) ∧
    ((st.registry.find? (fun p => p.1 == l.layerId_) = none ∧
        st'.registry = st.registry ∧ st'.flags = st.flags) ∨
     (∃ p, st.registry.find? (fun p => p.1 == l.layerId_) = some p ∧
        st'.registry = st.registry.filter (fun q => q.1 != l.layerId_) ∧
        st'.flags = st.flags.set p.2 false)) := by
  simp only [popDynamicLayerAndDeleteMetadata] at h
  split at h
  case h_1 => exact Except.noConfusion h
  case h_2 result st1 heq =>
    obtain ⟨hstk1, hkey1, hreg1, hflg1, hg1, hf1, htls1⟩ := popDynamicLayer_ok heq
    split at h
    case h_1 hfind =>
      injection h with h2
      injection h2 with hres hst
      subst hres
      subst hst
      rw [hreg1] at hfind
      exact ⟨hstk1, hkey1, hg1, hf1, htls1, Or.inl ⟨hfind, hreg1, hflg1⟩⟩
    case h_2 p hfind =>
      injection h with h2
      injection h2 with hres hst
      subst hres
      subst hst
      rw [hreg1] at hfind
      refine ⟨hstk1, hkey1, hg1, hf1, htls1, Or.inr ⟨p, hfind, ?_, ?_⟩⟩
      · show st1.registry.filter _ = _
        rw [hreg1]
      · show st1.flags.set p.2 false = _
        rw [hflg1]

theorem stackReg_runOp {st st' : FuncTorchState} {op : FtOp}
    (h : runOp st op = .ok st') (hinv : StackRegInv st) : StackRegInv st' := by
  obtain ⟨hs, hr⟩ := hinv
  cases op with
  | push k b r g f =>
    simp only [runOp] at h
    split at h
    case h_1 => exact Except.noConfusion h
    case h_2 lev st2 heq =>
      injection h with h2
      subst h2
      obtain ⟨hlev, hstk, hreg, hflg, _, _, _, _⟩ := initAndPush_ok heq
      have harith : lev = ((st.stack.length : Int) + 1) := by omega
      constructor
      · rw [hstk]
        simp only [List.map_cons, List.length_cons, levelList]
        rw [hs, harith]
      · rw [hreg, hstk]
        simp only [List.map_cons, List.length_cons, levelList]
        rw [hr, harith]
  | pop =>
    simp only [runOp] at h
    split at h
    case h_1 => exact Except.noConfusion h
    case h_2 l st2 heq =>
      injection h with h2
      subst h2
      obtain ⟨hstk, hkey, hg, hf, htls, hcases⟩ := popDelete_ok heq
      rw [hstk] at hs hr
      simp only [List.map_cons, List.length_cons, levelList] at hs
      injection hs with hlid hrest
      refine ⟨hrest, ?_⟩
      simp only [List.length_cons, levelList] at hr
      cases hregc : st.registry with
      | nil => rw [hregc] at hr; exact List.noConfusion hr
      | cons q qs =>
        rw [hregc] at hr
        injection hr with hq hqs
        have hql : q.1 = l.layerId_ := by rw [hq, hlid]
        rcases hcases with ⟨hfind, _, _⟩ | ⟨p, hfind, hregEq, _⟩
        · rw [hregc, List.find?_cons_of_pos _ (by simp [hql])] at hfind
          exact Option.noConfusion hfind
        · rw [hregEq, hregc]
          have hfilterhead : (q :: qs).filter (fun q2 => q2.1 != l.layerId_) =
              qs.filter (fun q2 => q2.1 != l.layerId_) := by
            rw [List.filter_cons_of_neg]
            simp [hql]
          rw [hfilterhead]
          have hkeep : qs.filter (fun q2 => q2.1 != l.layerId_) = qs := by
            rw [List.filter_eq_self]
            intro a ha
            have hmem : a.1 ∈ qs.map Prod.fst := List.mem_map_of_mem Prod.fst ha
            rw [hqs] at hmem
            have hb := mem_levelList.mp hmem
            have : a.1 ≠ l.layerId_ := by rw [hlid]; omega
            simpa using this
          rw [hkeep, hqs]

theorem stackReg_runOps {st st' : FuncTorchState} {ops : List FtOp}
    (h : runOps st ops = .ok st') (hinv : StackRegInv st) : StackRegInv st' := by
  induction ops generalizing st with
  | nil =>
    simp only [runOps] at h
    injection h with h2
    subst h2
    exact hinv
  | cons op ops ih =>
    simp only [runOps] at h
    split at h
    case h_1 => exact Except.noConfusion h
    case h_2 st2 heq => exact ih h (stackReg_runOp heq hinv)

theorem stackRegInv_initState (tls0 : LocalDispatchKeySet) : StackRegInv (initState tls0) :=
  ⟨rfl, rfl⟩

theorem tls_runOp {tls0 : LocalDispatchKeySet} {st st' : FuncTorchState} {op : FtOp}
    (h0 : GoodInitTLS tls0) (h : runOp st op = .ok st') (hinv : TLSInv tls0 st) :
    TLSInv tls0 st' := by
  obtain ⟨htls, hlast⟩ := hinv
  cases op with
  | push k b r g f =>
    simp only [runOp] at h
    split at h
    case h_1 => exact Except.noConfusion h
    case h_2 lev st2 heq =>
      injection h with h2
      subst h2
      obtain ⟨hlev, hstk, _, _, _, _, _, htls2⟩ := initAndPush_ok heq
      constructor
      · rw [hstk, htls2]
        cases hsc : st.stack with
        | nil =>
          rw [hsc] at htls
          simp only [hsc, List.length_nil, List.isEmpty_nil, if_pos rfl] at htls ⊢
          rw [htls]
          simp [setFrontBackIncluded_setFrontBackIncluded]
        | cons a as =>
          rw [hsc] at htls
          simp only [hsc, List.length_cons, List.isEmpty_cons] at htls ⊢
          rw [if_neg (by omega)]
          simpa using htls
      · intro l hl
        rw [hstk] at hl
        cases hsc : st.stack with
        | nil =>
          rw [hsc] at hl htls
          simp only [List.getLast?_singleton, Option.some.injEq] at hl
          subst hl
          simp only [List.isEmpty_nil] at htls
          rw [htls]
          exact setFrontBackIncluded_id tls0 false h0.1 h0.2
        | cons a as =>
          rw [hsc] at hl
          rw [List.getLast?_cons_cons] at hl
          apply hlast
          rw [hsc]
          exact hl
  | pop =>
    simp only [runOp] at h
    split at h
    case h_1 => exact Except.noConfusion h
    case h_2 l st2 heq =>
      injection h with h2
      subst h2
      obtain ⟨hstk, _, _, _, htls2, _⟩ := popDelete_ok heq
      have hne : st.stack.isEmpty = false := by rw [hstk]; rfl
      rw [hne] at htls
      simp only [Bool.not_false] at htls
      constructor
      · rw [htls2]
        cases hsc : st2.stack with
        | nil =>
          rw [htls]
          simp [setFrontBackIncluded_setFrontBackIncluded]
        | cons a as =>
          simp only [List.isEmpty_cons, Bool.not_false]
          rw [if_neg (by simp)]
          exact htls
      · intro l2 hl2
        apply hlast
        rw [hstk]
        cases hsc : st2.stack with
        | nil =>
          rw [hsc] at hl2
          simp at hl2
        | cons a as =>
          rw [hsc] at hl2
          rw [List.getLast?_cons_cons]
          exact hl2

theorem tls_runOps {tls0 : LocalDispatchKeySet} {st st' : FuncTorchState} {ops : List FtOp}
    (h0 : GoodInitTLS tls0) (h : runOps st ops = .ok st') (hinv : TLSInv tls0 st) :
    TLSInv tls0 st' := by
  induction ops generalizing st with
  | nil =>
    simp only [runOps] at h
    injection h with h2
    subst h2
    exact hinv
  | cons op ops ih =>
    simp only [runOps] at h
    split at h
    case h_1 => exact Except.noConfusion h
    case h_2 st2 heq => exact ih h (tls_runOp h0 heq hinv)

theorem tlsInv_initState {tls0 : LocalDispatchKeySet} (h0 : GoodInitTLS tls0) :
    TLSInv tls0 (initState tls0) := by
  constructor
  · show tls0 = setFrontBackIncluded tls0 false
    exact (setFrontBackIncluded_id tls0 false h0.1 h0.2).symm
  · intro l hl
    exact Option.noConfusion hl

theorem get?_set_false {l : List Bool} {m i : Nat} (h : l.get? i = some false) :
    (l.set m false).get? i = some false := by
  induction l generalizing m i with
  | nil => simp at h
  | cons x xs ih =>
    cases m with
    | zero =>
      cases i with
      | zero => rfl
      | succ j => simpa using h
    | succ m2 =>
      cases i with
      | zero => simpa using h
      | succ j =>
        have h2 : xs.get? j = some false := by simpa using h
        simpa using ih h2

theorem flags_mono_runOp {st st' : FuncTorchState} {op : FtOp} {i : Nat}
    (h : runOp st op = .ok st') (hf : st.flags.get? i = some false) :
    st'.flags.get? i = some false := by
  cases op with
  | push k b r g f =>
    simp only [runOp] at h
    split at h
    case h_1 => exact Except.noConfusion h
    case h_2 lev st2 heq =>
      injection h with h2
      subst h2
      obtain ⟨_, _, _, hflg, _, _, _, _⟩ := initAndPush_ok heq
      rw [hflg]
      have hlt : i < st.flags.length := by
        by_contra hge
        rw [List.get?_eq_none.mpr (by omega)] at hf
        exact Option.noConfusion hf
      rw [List.get?_eq_getElem?, List.getElem?_append_left hlt, ← List.get?_eq_getElem?]
      exact hf
  | pop =>
    simp only [runOp] at h
    split at h
    case h_1 => exact Except.noConfusion h
    case h_2 l st2 heq =>
      injection h with h2
      subst h2
      obtain ⟨_, _, _, _, _, hcases⟩ := popDelete_ok heq
      rcases hcases with ⟨_, _, hflg⟩ | ⟨p, _, _, hflg⟩
      · rw [hflg]; exact hf
      · rw [hflg]; exact get?_set_false hf

theorem flags_mono_runOps {st st' : FuncTorchState} {ops : List FtOp} {i : Nat}
    (h : runOps st ops = .ok st') (hf : st.flags.get? i = some false) :
    st'.flags.get? i = some false := by
  induction ops generalizing st with
  | nil =>
    simp only [runOps] at h
    injection h with h2
    subst h2
    exact hf
  | cons op ops ih =>
    simp only [runOps] at h
    split at h
    case h_1 => exact Except.noConfusion h
    case h_2 st2 heq => exact ih h (flags_mono_runOp heq hf)

theorem get?_append_len {α : Type} (pre : List α) (a : α) (rest : List α) :
    (pre ++ a :: rest).get? pre.length = some a := by
  induction pre with
  | nil => rfl
  | cons x xs ih => simpa using ih

theorem set_append_len {α : Type} (pre : List α) (a b : α) (rest : List α) :
    (pre ++ a :: rest).set pre.length b = pre ++ b :: rest := by
  induction pre with
  | nil => rfl
  | cons x xs ih => simp [ih]

theorem mapExcept_of_pointwise {α β : Type} {f : α → Except FtError β} {g : α → β}
    {l : List α} (h : ∀ a ∈ l, f a = .ok (g a)) :
    mapExcept f l = .ok (l.map g) := by
  induction l with
  | nil => rfl
  | cons a as ih =>
    simp only [mapExcept, h a (by simp), ih (fun x hx => h x (by simp [hx])), List.map_cons]

theorem foreachLoop_append (f : Tensor → Except FtError Tensor) (suf : List IValue) :
    ∀ pre : List IValue,
      foreachLoop f (pre ++ suf) pre.length suf.length =
        match mapExcept (transformIValue f) suf with
        | .error e => .error e
        | .ok out => .ok (pre ++ out) := by
  induction suf with
  | nil =>
    intro pre
    simp [foreachLoop, mapExcept]
  | cons a rest ih =>
    intro pre
    simp only [List.length_cons, foreachLoop, get?_append_len, mapExcept]
    cases htr : transformIValue f a with
    | error e => rfl
    | ok a2 =>
      dsimp only
      rw [set_append_len]
      have h2 : pre ++ a2 :: rest = (pre ++ [a2]) ++ rest := by simp
      have h3 : pre.length + 1 = (pre ++ [a2]).length := by simp
      rw [h2, h3, ih (pre ++ [a2])]
      cases mapExcept (transformIValue f) rest with
      | error e => rfl
      | ok out => simp

theorem backFallbackUnwrap_good {cur_level : Int} {t : Tensor}
    (h : goodListTensor cur_level t = true) :
    backFallbackUnwrap cur_level t = .ok (pureBackUnwrap cur_level t) := by
  cases t with
  | undefined => rfl
  | raw id => rfl
  | wrapped v l hh =>
    simp only [goodListTensor, decide_eq_true_eq] at h
    unfold backFallbackUnwrap
    simp only [Tensor.defined, Bool.not_true, maybeGetTensorWrapper, pureBackUnwrap]
    rw [if_neg (by simp)]
    rw [if_neg (by omega)]
    by_cases hl : l = cur_level
    · rw [if_pos hl, if_pos hl]
    · rw [if_neg hl, if_neg hl]

theorem transformIValue_good {cur_level : Int} {iv : IValue}
    (h : goodBackArg cur_level iv = true) :
    transformIValue (backFallbackUnwrap cur_level) iv =
      .ok (mapIValueTensors (pureBackUnwrap cur_level) iv) := by
  cases iv with
  | tensor t =>
    have hp : goodPlainTensor cur_level t = true := h
    have hl : goodListTensor cur_level t = true := by
      cases t with
      | undefined => rfl
      | raw id => rfl
      | wrapped v l hh =>
        simp only [goodPlainTensor, Bool.and_eq_true] at hp
        simp only [goodListTensor]
        exact hp.1
    have hsan : (t.defined && !((pureBackUnwrap cur_level t).defined)) = false := by
      cases t with
      | undefined => rfl
      | raw id => rfl
      | wrapped v l hh =>
        simp only [goodPlainTensor, Bool.and_eq_true, Bool.or_eq_true,
          Bool.not_eq_true', beq_eq_false_iff_ne, ne_eq] at hp
        simp only [pureBackUnwrap]
        by_cases hleq : l = cur_level
        · rw [if_pos hleq]
          show (true && !v.defined) = false
          rcases hp.2 with hne | hdef
          · exact absurd hleq hne
          · rw [hdef]; rfl
        · rw [if_neg hleq]; rfl
    simp only [transformIValue, backFallbackUnwrap_good hl, mapIValueTensors]
    rw [if_neg (by rw [hsan]; simp)]
  | tensorList ts =>
    have hall : ∀ t ∈ ts, goodListTensor cur_level t = true := by
      simpa [goodBackArg, List.all_eq_true] using h
    simp only [transformIValue, mapIValueTensors]
    rw [mapExcept_of_pointwise (fun t ht => backFallbackUnwrap_good (hall t ht))]
  | list es =>
    have hall : ∀ e ∈ es, (match e with
        | IValue.tensor t => goodListTensor cur_level t
        | _ => true) = true := by
      simpa [goodBackArg, List.all_eq_true] using h
    simp only [transformIValue, mapIValueTensors]
    rw [mapExcept_of_pointwise (g := fun e =>
      match e with
      | IValue.tensor t => IValue.tensor (pureBackUnwrap cur_level t)
      | e => e)]
    intro e he
    cases e with
    | tensor t =>
      have hgt := hall (IValue.tensor t) he
      simp only at hgt
      dsimp only
      rw [backFallbackUnwrap_good hgt]
    | tensorList ts2 => rfl
    | list es2 => rfl
    | genericDict => rfl
    | scalar n => rfl
  | genericDict => exact Bool.noConfusion h
  | scalar n => rfl

/-! ## Claim theorems -/

/-- C10: replacing the thread's layer stack wholesale via
`setDynamicLayerStack` leaves the liveness registry, the flag arena, and the
thread's dispatch key set (hence the two boundary-handler capability flags)
completely unchanged, for every replacement stack - including ones that change
the stack between empty and non-empty; only `stack` itself is replaced. -/
theorem setDynamicLayerStack_frame (st : FuncTorchState) (s : List DynamicLayer) :
    (setDynamicLayerStack st s).registry = st.registry ∧
    (setDynamicLayerStack st s).flags = st.flags ∧
    (setDynamicLayerStack st s).tls = st.tls ∧
    (setDynamicLayerStack st s).stack = s :=
  ⟨rfl, rfl, rfl, rfl⟩

/-- C1: for every sequence of the push/pop operations from a fresh thread, the
i-th stack entry (1-indexed from the bottom) has level i; a successful push
assigns level (size before push) + 1 and places the new layer on top of the
unchanged old stack; a successful pop removes exactly the top entry. -/
theorem stack_level_invariant :
    (∀ (tls0 : LocalDispatchKeySet) (ops : List FtOp) (st : FuncTorchState),
      runOps (initState tls0) ops = .ok st →
      ∀ i : Nat, 1 ≤ i → i ≤ st.stack.length →
        (st.stack.get? (st.stack.length - i)).map DynamicLayer.layerId_ =
          some (i : Int)) ∧
    (∀ (st st' : FuncTorchState) (k : DispatchKey) (b : Option Int)
        (r : Option RandomnessType) (g f : Option Bool) (lev : Int),
      initAndPushDynamicLayer st k b r g f = .ok (lev, st') →
      lev = 1 + (st.stack.length : Int) ∧
      ∃ l : DynamicLayer, st'.stack = l :: st.stack ∧ l.layerId_ = lev) ∧
    (∀ (st st' : FuncTorchState) (l : DynamicLayer),
      popDynamicLayerAndDeleteMetadata st = .ok (l, st') →
      st.stack = l :: st'.stack) := by
  refine ⟨?_, ?_, ?_⟩
  · intro tls0 ops st h i h1 h2
    obtain ⟨hs, _⟩ := stackReg_runOps h (stackRegInv_initState tls0)
    have hj : st.stack.length - i < st.stack.length := by omega
    calc (st.stack.get? (st.stack.length - i)).map DynamicLayer.layerId_
        = (st.stack.map DynamicLayer.layerId_).get? (st.stack.length - i) := by
          simp [List.get?_eq_getElem?, List.getElem?_map]
      _ = (levelList st.stack.length).get? (st.stack.length - i) := by rw [hs]
      _ = some ((st.stack.length : Int) - ((st.stack.length - i : Nat) : Int)) :=
          levelList_get? hj
      _ = some (i : Int) := by congr 1; omega
  · intro st st' k b r g f lev h
    obtain ⟨hlev, hstk, _, _, _, _, _, _⟩ := initAndPush_ok h
    exact ⟨hlev, _, hstk, rfl⟩
  · intro st st' l h
    exact (popDelete_ok h).1

theorem stack_level_invariant_witness :
    (stW2.stack.get? (stW2.stack.length - 1)).map DynamicLayer.layerId_ =
      some ((1 : Nat) : Int) :=
  stack_level_invariant.1 tlsZero
    [FtOp.push DispatchKey.Autograd none none (some true) none,
     FtOp.push DispatchKey.Batched (some 3) (some RandomnessType.Error) none none]
    stW2 (by decide) 1 (by decide) (by decide)

/-- C8: after any sequence of the public push and pop-and-invalidate
operations from a fresh thread, the registry has an entry for a level iff a
layer with that level is on the stack, and `areTransformsActive` returns true
exactly when the stack is non-empty. -/
theorem registry_stack_correspondence :
    ∀ (tls0 : LocalDispatchKeySet) (ops : List FtOp) (st : FuncTorchState),
      runOps (initState tls0) ops = .ok st →
      (∀ level : Int,
        (∃ hnd : Nat, (level, hnd) ∈ st.registry) ↔
          (∃ l ∈ st.stack, l.layerId_ = level)) ∧
      (areTransformsActive st = true ↔ st.stack ≠ []) := by
  intro tls0 ops st h
  obtain ⟨hs, hr⟩ := stackReg_runOps h (stackRegInv_initState tls0)
  constructor
  · intro level
    constructor
    · rintro ⟨hnd, hmem⟩
      have hmm : level ∈ st.registry.map Prod.fst :=
        List.mem_map_of_mem Prod.fst hmem
      rw [hr, ← hs] at hmm
      obtain ⟨l, hl, hleq⟩ := List.mem_map.mp hmm
      exact ⟨l, hl, hleq⟩
    · rintro ⟨l, hl, hleq⟩
      have hmm : level ∈ st.registry.map Prod.fst := by
        rw [hr, ← hs]
        exact List.mem_map.mpr ⟨l, hl, hleq⟩
      obtain ⟨p, hp, hpeq⟩ := List.mem_map.mp hmm
      refine ⟨p.2, ?_⟩
      rw [← hpeq]
      exact hp
  · constructor
    · intro ha hempty
      rw [hempty] at hr
      simp only [List.length_nil, levelList] at hr
      have : st.registry = [] := List.map_eq_nil_iff.mp hr
      rw [areTransformsActive, this] at ha
      simp at ha
    · intro hne
      cases hsc : st.stack with
      | nil => exact absurd hsc hne
      | cons a as =>
        rw [hsc] at hr
        simp only [List.length_cons, levelList] at hr
        cases hregc : st.registry with
        | nil => rw [hregc] at hr; exact List.noConfusion hr
        | cons q qs => rw [areTransformsActive, hregc]; rfl

theorem registry_stack_correspondence_witness :
    (∃ hnd : Nat, ((1 : Int), hnd) ∈ stW1.registry) ↔
      (∃ l ∈ stW1.stack, l.layerId_ = (1 : Int)) :=
  (registry_stack_correspondence tlsZero
    [FtOp.push DispatchKey.Autograd none none (some true) none]
    stW1 (by decide)).1 1

/-- C6: the two boundary-handler dispatch keys are turned on exactly on the
0-to-1 push transition and turned off exactly on the 1-to-0 pop transition;
every other push or pop leaves them unchanged, and under push/pop sequences
from a fresh thread the keys are included iff the stack is non-empty. -/
theorem boundary_capability_toggling :
    (∀ (st st' : FuncTorchState) (k : DispatchKey) (b : Option Int)
        (r : Option RandomnessType) (g f : Option Bool),
      st.stack ≠ [] → runOp st (.push k b r g f) = .ok st' →
      st'.tls.included_.dynamicLayerFrontMode = st.tls.included_.dynamicLayerFrontMode ∧
      st'.tls.included_.dynamicLayerBackMode = st.tls.included_.dynamicLayerBackMode) ∧
    (∀ (st st' : FuncTorchState) (k : DispatchKey) (b : Option Int)
        (r : Option RandomnessType) (g f : Option Bool),
      st.stack = [] → runOp st (.push k b r g f) = .ok st' →
      st'.tls.included_.dynamicLayerFrontMode = true ∧
      st'.tls.included_.dynamicLayerBackMode = true) ∧
    (∀ st st' : FuncTorchState, ∀ l : DynamicLayer,
      popDynamicLayerAndDeleteMetadata st = .ok (l, st') → st'.stack ≠ [] →
      st'.tls.included_.dynamicLayerFrontMode = st.tls.included_.dynamicLayerFrontMode ∧
      st'.tls.included_.dynamicLayerBackMode = st.tls.included_.dynamicLayerBackMode) ∧
    (∀ st st' : FuncTorchState, ∀ l : DynamicLayer,
      popDynamicLayerAndDeleteMetadata st = .ok (l, st') → st'.stack = [] →
      st'.tls.included_.dynamicLayerFrontMode = false ∧
      st'.tls.included_.dynamicLayerBackMode = false) ∧
    (∀ (tls0 : LocalDispatchKeySet) (ops : List FtOp) (st : FuncTorchState),
      GoodInitTLS tls0 → runOps (initState tls0) ops = .ok st →
      (st.tls.included_.dynamicLayerFrontMode = true ↔ st.stack ≠ []) ∧
      (st.tls.included_.dynamicLayerBackMode = true ↔ st.stack ≠ [])) := by
  refine ⟨?_, ?_, ?_, ?_, ?_⟩
  · intro st st' k b r g f hne h
    simp only [runOp] at h
    split at h
    case h_1 => exact Except.noConfusion h
    case h_2 lev st2 heq =>
      injection h with h2
      subst h2
      obtain ⟨_, _, _, _, _, _, _, htls2⟩ := initAndPush_ok heq
      have hlen : ¬st.stack.length = 0 := by
        intro hz
        exact hne (List.eq_nil_of_length_eq_zero hz)
      rw [htls2, if_neg hlen]
      exact ⟨rfl, rfl⟩
  · intro st st' k b r g f hempty h
    simp only [runOp] at h
    split at h
    case h_1 => exact Except.noConfusion h
    case h_2 lev st2 heq =>
      injection h with h2
      subst h2
      obtain ⟨_, _, _, _, _, _, _, htls2⟩ := initAndPush_ok heq
      have hlen : st.stack.length = 0 := by rw [hempty]; rfl
      rw [htls2, if_pos hlen]
      exact ⟨setFrontBackIncluded_front st.tls true, setFrontBackIncluded_back st.tls true⟩
  · intro st st' l h hne
    obtain ⟨_, _, _, _, htls2, _⟩ := popDelete_ok h
    have hie : st'.stack.isEmpty = false := by
      cases hsc : st'.stack with
      | nil => exact absurd hsc hne
      | cons a as => rfl
    rw [htls2, hie, if_neg (by simp)]
    exact ⟨rfl, rfl⟩
  · intro st st' l h hempty
    obtain ⟨_, _, _, _, htls2, _⟩ := popDelete_ok h
    have hie : st'.stack.isEmpty = true := by rw [hempty]; rfl
    rw [htls2, hie, if_pos rfl]
    exact ⟨setFrontBackIncluded_front st.tls false, setFrontBackIncluded_back st.tls false⟩
  · intro tls0 ops st h0 h
    obtain ⟨htls, _⟩ := tls_runOps h0 h (tlsInv_initState h0)
    cases hsc : st.stack with
    | nil =>
      rw [hsc] at htls
      simp only [List.isEmpty_nil, Bool.not_true] at htls
      rw [htls, setFrontBackIncluded_front, setFrontBackIncluded_back]
      simp
    | cons a as =>
      rw [hsc] at htls
      simp only [List.isEmpty_cons, Bool.not_false] at htls
      rw [htls, setFrontBackIncluded_front, setFrontBackIncluded_back]
      simp

theorem boundary_capability_toggling_witness :
    stW1.tls.included_.dynamicLayerFrontMode = true ∧
    stW1.tls.included_.dynamicLayerBackMode = true :=
  boundary_capability_toggling.2.1 (initState tlsZero) stW1
    DispatchKey.Autograd none none (some true) none rfl (by decide)

/-- C5: the back boundary handler re-issues the call under the layer's saved
configuration when removing the top layer empties the stack (and that saved
configuration is exactly the thread's configuration from before the first
layer was pushed), and otherwise under a configuration that includes (and does
not exclude) the front-boundary key; moreover once the stack is empty again
the thread's active configuration equals the initial one bit-for-bit. -/
theorem back_fallback_config_choice :
    ∀ (tls0 : LocalDispatchKeySet) (ops : List FtOp) (st : FuncTorchState),
      GoodInitTLS tls0 → runOps (initState tls0) ops = .ok st →
      (∀ l : DynamicLayer, st.stack = [l] →
        backFallbackRedispatchTLS st = .ok l.prevLocalDispatchKeySet_ ∧
        l.prevLocalDispatchKeySet_ = tls0) ∧
      (∀ (l1 l2 : DynamicLayer) (rest : List DynamicLayer),
        st.stack = l1 :: l2 :: rest →
        backFallbackRedispatchTLS st =
          .ok (keysetToReturnToDynamicLayerFront st.tls) ∧
        (keysetToReturnToDynamicLayerFront st.tls).included_.dynamicLayerFrontMode = true ∧
        (keysetToReturnToDynamicLayerFront st.tls).excluded_.dynamicLayerFrontMode = false) ∧
      (st.stack = [] → st.tls = tls0) := by
  intro tls0 ops st h0 h
  obtain ⟨htls, hlast⟩ := tls_runOps h0 h (tlsInv_initState h0)
  refine ⟨?_, ?_, ?_⟩
  · intro l hl
    constructor
    · unfold backFallbackRedispatchTLS
      rw [hl]
      rfl
    · apply hlast
      rw [hl]
      rfl
  · intro l1 l2 rest hl
    refine ⟨?_, rfl, rfl⟩
    unfold backFallbackRedispatchTLS
    rw [hl]
    rfl
  · intro hempty
    rw [hempty] at htls
    simp only [List.isEmpty_nil, Bool.not_true] at htls
    rw [htls]
    exact setFrontBackIncluded_id tls0 false h0.1 h0.2

theorem back_fallback_config_choice_witness :
    (backFallbackRedispatchTLS stW1 = .ok layerA1.prevLocalDispatchKeySet_ ∧
      layerA1.prevLocalDispatchKeySet_ = tlsZero) :=
  (back_fallback_config_choice tlsZero
    [FtOp.push DispatchKey.Autograd none none (some true) none]
    stW1 ⟨rfl, rfl⟩ (by decide)).1 layerA1 rfl

/-- C9: a level's liveness flag is created true at layer creation; at pop the
flag cell named by the registry entry is set false and the entry erased; a
flag cell that is false stays false under every further operation sequence;
and `unwrapIfDead` replaces a wrapper whose flag cell is false by its raw
value on every observation. -/
theorem liveness_monotonicity :
    (∀ (st : FuncTorchState) (k : DispatchKey) (b : Option Int)
        (r : Option RandomnessType) (g f : Option Bool) (lev : Int)
        (st' : FuncTorchState),
      initAndPushDynamicLayer st k b r g f = .ok (lev, st') →
      st'.flags = st.flags ++ [true] ∧
      st'.registry = (lev, st.flags.length) :: st.registry ∧
      st'.flags.get? st.flags.length = some true) ∧
    (∀ (st : FuncTorchState) (l : DynamicLayer) (st' : FuncTorchState)
        (p : Int × Nat),
      popDynamicLayerAndDeleteMetadata st = .ok (l, st') →
      st.registry.find? (fun q => q.1 == l.layerId_) = some p →
      st'.flags = st.flags.set p.2 false ∧
      st'.registry = st.registry.filter (fun q => q.1 != l.layerId_)) ∧
    (∀ (st : FuncTorchState) (ops : List FtOp) (st' : FuncTorchState) (i : Nat),
      runOps st ops = .ok st' → st.flags.get? i = some false →
      st'.flags.get? i = some false) ∧
    (∀ (flags : List Bool) (v : Tensor) (l : Int) (hnd : Nat),
      flags.get? hnd = some false →
      unwrapIfDead flags (.wrapped v l hnd) = v) := by
  refine ⟨?_, ?_, ?_, ?_⟩
  · intro st k b r g f lev st' h
    obtain ⟨_, _, hreg, hflg, _, _, _, _⟩ := initAndPush_ok h
    refine ⟨hflg, hreg, ?_⟩
    rw [hflg]
    exact get?_append_len st.flags true []
  · intro st l st' p h hfind
    obtain ⟨_, _, _, _, _, hcases⟩ := popDelete_ok h
    rcases hcases with ⟨hnone, _, _⟩ | ⟨q, hsome, hregEq, hflgEq⟩
    · rw [hnone] at hfind
      exact Option.noConfusion hfind
    · rw [hsome] at hfind
      injection hfind with hpq
      subst hpq
      exact ⟨hflgEq, hregEq⟩
  · intro st ops st' i h hf
    exact flags_mono_runOps h hf
  · intro flags v l hnd hdead
    have halive : wrapperIsAlive flags hnd = false := by
      unfold wrapperIsAlive
      rw [List.getD_eq_getElem?_getD, ← List.get?_eq_getElem?, hdead]
      rfl
    unfold unwrapIfDead maybeGetTensorWrapper
    dsimp only
    rw [halive]
    simp

theorem liveness_monotonicity_witness :
    unwrapIfDead [false] (.wrapped (.raw 3) 1 0) = .raw 3 :=
  liveness_monotonicity.2.2.2 [false] (.raw 3) 1 0 rfl

/-- C2: with a non-empty stack whose top layer is Autograd (Differentiation),
the front handler's per-argument transformation first replaces a dead wrapper
by its raw value, then: a value wrapped strictly below the top level is
re-wrapped at the top level, a value wrapped at exactly the top level passes
through unchanged, a raw value is freshly wrapped at the top level, and a
value wrapped strictly above the top level fails the escape assertion. -/
theorem front_fallback_wrapping :
    ∀ (registry : List (Int × Nat)) (flags : List Bool) (top : DynamicLayer)
      (rest : List DynamicLayer) (t : Tensor) (hL : Nat),
      top.key_ = DispatchKey.Autograd →
      getLifeHandleForLevel registry top.layerId_ = .ok hL →
      (∀ v l hh, unwrapIfDead flags t = .wrapped v l hh → l < top.layerId_ →
        maybeTransformGradWrappers registry flags (top :: rest) t =
          .ok (.wrapped (unwrapIfDead flags t) top.layerId_ hL)) ∧
      (∀ v hh, unwrapIfDead flags t = .wrapped v top.layerId_ hh →
        maybeTransformGradWrappers registry flags (top :: rest) t =
          .ok (unwrapIfDead flags t)) ∧
      (∀ i, unwrapIfDead flags t = .raw i →
        maybeTransformGradWrappers registry flags (top :: rest) t =
          .ok (.wrapped (unwrapIfDead flags t) top.layerId_ hL)) ∧
      (∀ v l hh, unwrapIfDead flags t = .wrapped v l hh → top.layerId_ < l →
        maybeTransformGradWrappers registry flags (top :: rest) t =
          .error (.internalAssert "escaped?")) := by
  intro registry flags top rest t hL hkey hlife
  refine ⟨?_, ?_, ?_, ?_⟩
  · intro v l hh hu hlt
    unfold maybeTransformGradWrappers
    rw [hu]
    unfold materializeGradWrappers
    rw [if_neg (by simp [Tensor.defined])]
    dsimp only [maybeGetTensorWrapper]
    rw [if_neg (by simp [hkey]), if_neg (by omega), if_neg (by omega)]
    unfold makeTensorWrapper
    rw [hlife, ← hu]
  · intro v hh hu
    unfold maybeTransformGradWrappers
    rw [hu]
    unfold materializeGradWrappers
    rw [if_neg (by simp [Tensor.defined])]
    dsimp only [maybeGetTensorWrapper]
    rw [if_neg (by simp [hkey]), if_neg (by omega), if_pos rfl,
      if_pos (by simp [Tensor.defined])]
  · intro i hu
    unfold maybeTransformGradWrappers
    rw [hu]
    unfold materializeGradWrappers
    rw [if_neg (by simp [Tensor.defined])]
    dsimp only [maybeGetTensorWrapper]
    rw [if_neg (by simp [hkey])]
    unfold makeTensorWrapper
    rw [hlife, ← hu]
  · intro v l hh hu hgt
    unfold maybeTransformGradWrappers
    rw [hu]
    unfold materializeGradWrappers
    rw [if_neg (by simp [Tensor.defined])]
    dsimp only [maybeGetTensorWrapper]
    rw [if_neg (by simp [hkey]), if_pos (by omega)]

theorem front_fallback_wrapping_witness :
    maybeTransformGradWrappers [(1, 0)] [true] [layerA1] (.raw 7) =
      .ok (.wrapped (unwrapIfDead [true] (.raw 7)) layerA1.layerId_ 0) :=
  ((front_fallback_wrapping [(1, 0)] [true] layerA1 [] (.raw 7) 0 rfl rfl).2.2.1) 7 rfl

/-- C3 counterexample: a mutable single-return schema whose first argument is
writable in alias set 0 while the return is writable in a DIFFERENT alias set
is not in-place per the specification's definition, yet the code raises the
captured-mutation error for it (Autograd top layer, raw first argument). -/
theorem mutation_check_counterexample :
    checkForInvalidMutationOnCaptures [true] schemaMismatch
        [.tensor (.raw 0)] [layerA1] = .error .capturedMutation ∧
    isInplaceOpSpec schemaMismatch = false ∧
    isInplaceOp schemaMismatch = true :=
  ⟨rfl, rfl, rfl⟩

/-- C3 (amended): the front handler's mutation-safety check raises the
user-facing captured-mutation error iff the top layer is Autograd
(Differentiation), the schema is classified in-place by the SOURCE's
`isInplaceOp` (which requires the return to carry a writable alias annotation
but does not require it to alias the first argument), and the first argument
after dead-wrapper unwrapping is not a wrapper at exactly the current top
level; the same call with the argument wrapped at exactly the top level
passes. -/
theorem mutation_check_amended :
    ∀ (flags : List Bool) (schema : FunctionSchema) (args : List IValue)
      (top : DynamicLayer) (rest : List DynamicLayer) (t : Tensor),
      args.length = schema.arguments.length →
      args.head? = some (.tensor t) →
      ((checkForInvalidMutationOnCaptures flags schema args (top :: rest) =
          .error .capturedMutation) ↔
        (top.key_ = DispatchKey.Autograd ∧ isInplaceOp schema = true ∧
          ∀ v hh, unwrapIfDead flags t ≠ .wrapped v top.layerId_ hh)) ∧
      (top.key_ = DispatchKey.Autograd → isInplaceOp schema = true →
        ∀ v hh, unwrapIfDead flags t = .wrapped v top.layerId_ hh →
        checkForInvalidMutationOnCaptures flags schema args (top :: rest) =
          .ok ()) := by
  intro flags schema args top rest t hlen hhead
  have hjit : jitLast args schema.arguments.length = args := by
    unfold jitLast
    rw [← hlen, Nat.sub_self, List.drop_zero]
  by_cases hk : top.key_ = DispatchKey.Autograd
  · by_cases hip : isInplaceOp schema = true
    · have hstep : checkForInvalidMutationOnCaptures flags schema args (top :: rest) =
          (match maybeGetTensorWrapper (unwrapIfDead flags t) with
           | some (_, l, _) =>
             if l = top.layerId_ then .ok () else .error .capturedMutation
           | none => .error .capturedMutation) := by
        unfold checkForInvalidMutationOnCaptures
        dsimp only
        rw [if_neg (by simp [hk]), if_neg (by simp [hip]), hjit, hhead]
      cases hu : unwrapIfDead flags t with
      | wrapped v l hh =>
        rw [hu] at hstep
        dsimp only [maybeGetTensorWrapper] at hstep
        by_cases hl : l = top.layerId_
        · rw [if_pos hl] at hstep
          constructor
          · rw [hstep]
            constructor
            · intro hcon; exact Except.noConfusion hcon
            · rintro ⟨_, _, hall⟩
              exact (hall v hh (by rw [hl])).elim
          · intro _ _ v' hh' _
            exact hstep
        · rw [if_neg hl] at hstep
          constructor
          · rw [hstep]
            constructor
            · intro _
              refine ⟨hk, hip, ?_⟩
              intro v' hh' heq
              injection heq with _ h2 _
              exact hl h2
            · intro _; rfl
          · intro _ _ v' hh' heq
            injection heq with _ h2 _
            exact absurd h2 hl
      | raw i =>
        rw [hu] at hstep
        dsimp only [maybeGetTensorWrapper] at hstep
        constructor
        · rw [hstep]
          constructor
          · intro _
            refine ⟨hk, hip, ?_⟩
            intro v' hh' heq
            exact Tensor.noConfusion heq
          · intro _; rfl
        · intro _ _ v' hh' heq
          exact Tensor.noConfusion heq
      | undefined =>
        rw [hu] at hstep
        dsimp only [maybeGetTensorWrapper] at hstep
        constructor
        · rw [hstep]
          constructor
          · intro _
            refine ⟨hk, hip, ?_⟩
            intro v' hh' heq
            exact Tensor.noConfusion heq
          · intro _; rfl
        · intro _ _ v' hh' heq
          exact Tensor.noConfusion heq
    · have hres : checkForInvalidMutationOnCaptures flags schema args (top :: rest) =
          .ok () := by
        unfold checkForInvalidMutationOnCaptures
        dsimp only
        rw [if_neg (by simp [hk]), if_pos (by simp [hip])]
      constructor
      · rw [hres]
        constructor
        · intro hcon; exact Except.noConfusion hcon
        · rintro ⟨_, hip2, _⟩; exact absurd hip2 hip
      · intro _ hip2; exact absurd hip2 hip
  · have hres : checkForInvalidMutationOnCaptures flags schema args (top :: rest) =
        .ok () := by
      unfold checkForInvalidMutationOnCaptures
      dsimp only
      rw [if_pos hk]
    constructor
    · rw [hres]
      constructor
      · intro hcon; exact Except.noConfusion hcon
      · rintro ⟨hk2, _, _⟩; exact absurd hk2 hk
    · intro hk2; exact absurd hk2 hk

theorem mutation_check_amended_witness :
    checkForInvalidMutationOnCaptures [true] schemaInplace
        [.tensor (.wrapped (.raw 0) 1 0), .scalar 5] [layerA1] = .ok () :=
  (mutation_check_amended [true] schemaInplace
      [.tensor (.wrapped (.raw 0) 1 0), .scalar 5] layerA1 []
      (.wrapped (.raw 0) 1 0) rfl rfl).2 rfl rfl (.raw 0) 0 rfl

/-- C4 counterexample: an argument wrapped at a level strictly ABOVE the
current top level does not pass through unchanged - the back handler's unwrap
trips the internal escape assertion (level 2 wrapper under a level-1 layer). -/
theorem back_fallback_unwrap_counterexample :
    backFallbackStep12 DispatchKey.Autograd 1 1
        [.tensor (.wrapped (.raw 0) 2 5)] =
      .error (.internalAssert "tensor_wrapper_level <= cur_level") := rfl

/-- C4 (amended): for an Autograd (Differentiation) top layer, the back
handler duplicates the argument sub-range onto the call stack and, in the
duplicate only, replaces every tensor wrapped at exactly the current level by
its raw value, while unwrapped tensors and tensors wrapped at a strictly
LOWER level pass through unchanged; a tensor wrapped strictly above the
current level instead fails an internal assertion (see the counterexample),
so the clean result is stated for argument ranges without such wrappers. -/
theorem back_fallback_unwrap_amended :
    ∀ (stack : List IValue) (args_size : Nat) (cur_level : Int),
      args_size ≤ stack.length →
      (∀ iv ∈ stack.drop (stack.length - args_size),
        goodBackArg cur_level iv = true) →
      backFallbackStep12 DispatchKey.Autograd cur_level args_size stack =
        .ok (stack ++ (stack.drop (stack.length - args_size)).map
              (mapIValueTensors (pureBackUnwrap cur_level))) ∧
      (∀ v hh, pureBackUnwrap cur_level (.wrapped v cur_level hh) = v) ∧
      (∀ v l hh, l ≠ cur_level →
        pureBackUnwrap cur_level (.wrapped v l hh) = .wrapped v l hh) ∧
      (∀ t : Tensor, maybeGetTensorWrapper t = none →
        pureBackUnwrap cur_level t = t) := by
  intro stack args_size cur_level hle hgood
  have hlastlen : (stack.drop (stack.length - args_size)).length = args_size := by
    rw [List.length_drop]
    omega
  have htake : (stack.drop (stack.length - args_size)).take args_size =
      stack.drop (stack.length - args_size) :=
    List.take_of_length_le (le_of_eq hlastlen)
  refine ⟨?_, ?_, ?_, ?_⟩
  · simp only [backFallbackStep12]
    rw [if_pos trivial, htake]
    unfold foreachTensorInplace
    have hduplen : (stack ++ stack.drop (stack.length - args_size)).length =
        stack.length + args_size := by
      rw [List.length_append, hlastlen]
    rw [if_pos (by omega)]
    have he : (stack ++ stack.drop (stack.length - args_size)).length -
        ((stack ++ stack.drop (stack.length - args_size)).length - args_size) =
        (stack.drop (stack.length - args_size)).length := by omega
    have hb : (stack ++ stack.drop (stack.length - args_size)).length - args_size =
        stack.length := by omega
    rw [he, hb, foreachLoop_append,
      mapExcept_of_pointwise (fun iv hiv => transformIValue_good (hgood iv hiv))]
  · intro v hh
    simp [pureBackUnwrap]
  · intro v l hh hne
    simp [pureBackUnwrap, hne]
  · intro t ht
    cases t with
    | undefined => rfl
    | raw i => rfl
    | wrapped v l hh => exact Option.noConfusion ht

theorem back_fallback_unwrap_amended_witness :
    backFallbackStep12 DispatchKey.Autograd 1 1
        [.tensor (.wrapped (.raw 0) 1 0)] =
      .ok ([IValue.tensor (.wrapped (.raw 0) 1 0)] ++
        (([IValue.tensor (.wrapped (.raw 0) 1 0)] : List IValue).drop
          (([IValue.tensor (.wrapped (.raw 0) 1 0)] : List IValue).length - 1)).map
          (mapIValueTensors (pureBackUnwrap 1))) :=
  (back_fallback_unwrap_amended [.tensor (.wrapped (.raw 0) 1 0)] 1 1
    (by decide) (by decide)).1

/-- C7: in the scoped core of the back handler, if the re-dispatched inner
call fails after the top layer has been temporarily removed (leaving the
state as it found it), then the removed layer is restored to the top of the
stack and the scoped grad-mode and capability restorations run before the
failure propagates: the error is passed through unchanged, the final stack,
grad-mode and forward-grad-mode equal those at entry, and when the removed
layer was the last one (the case in which the capability guard is scoped)
the thread's key set is restored as well. -/
theorem scoped_pop_exception_safety :
    ∀ (st : FuncTorchState) (top : DynamicLayer) (rest : List DynamicLayer)
      (e : FtError) (inner : FuncTorchState → FuncTorchState × Option FtError),
      st.stack = top :: rest →
      top.key_ ≠ DispatchKey.Undefined →
      top.layerId_ = 1 + (rest.length : Int) →
      (top.key_ = DispatchKey.Autograd →
        (top.prevGradMode_.isSome ∨ top.prevFwdGradMode_.isSome)) →
      (∀ s, inner s = (s, some e)) →
      (backFallbackScopedCall st inner).2 = some e ∧
      (backFallbackScopedCall st inner).1.stack = st.stack ∧
      (backFallbackScopedCall st inner).1.gradMode = st.gradMode ∧
      (backFallbackScopedCall st inner).1.fwdGradMode = st.fwdGradMode ∧
      (rest = [] →
        st.tls.included_.dynamicLayerFrontMode = true →
        st.tls.included_.dynamicLayerBackMode = true →
        (backFallbackScopedCall st inner).1.tls = st.tls) := by
  intro st top rest e inner hstack hkeyU htopid hgradok hinner
  have hgradassert : ¬(top.key_ = DispatchKey.Autograd ∧
      ¬(top.prevGradMode_.isSome ∨ top.prevFwdGradMode_.isSome)) := by
    rintro ⟨ha, hb2⟩
    exact hb2 (hgradok ha)
  have hex : ∃ S, popDynamicLayer st = .ok (top, S) := by
    unfold popDynamicLayer
    rw [hstack]
    dsimp only
    rw [if_neg hkeyU]
    exact ⟨_, rfl⟩
  obtain ⟨S, hpop⟩ := hex
  obtain ⟨hstk1, _, hSreg, hSflg, hSgrad, hSfwd, hStls⟩ := popDynamicLayer_ok hpop
  rw [hstack] at hstk1
  injection hstk1 with _ hSstack
  simp only [backFallbackScopedCall, hstack]
  rw [if_neg hgradassert, hpop]
  dsimp only
  have hlen : (1 : Int) + S.stack.length = top.layerId_ := by
    rw [← hSstack, htopid]
  cases rest with
  | nil =>
    have hcond : S.stack.isEmpty = true := by rw [← hSstack]; rfl
    have hone : (1 : Int) + S.stack.length = 1 := by rw [← hSstack]; simp
    by_cases hg : top.key_ = DispatchKey.Autograd ∧ top.prevGradMode_ = some false
    · by_cases hb : top.key_ = DispatchKey.Autograd ∧ top.prevFwdGradMode_ = some false
      · simp only [if_pos hg, if_pos hb, if_pos hcond]
        rw [hinner]
        dsimp only
        simp only [pushDynamicLayer]
        rw [if_pos hlen, if_pos hone]
        refine ⟨rfl, ?_, ?_, ?_, ?_⟩
        · rw [hSstack]; rfl
        · exact hSgrad
        · exact hSfwd
        · intro _ hF hB
          show setFrontBackIncluded S.tls true = st.tls
          rw [hStls, if_pos hcond, setFrontBackIncluded_setFrontBackIncluded]
          exact setFrontBackIncluded_id st.tls true hF hB
      · simp only [if_pos hg, if_neg hb, if_pos hcond]
        rw [hinner]
        dsimp only
        simp only [pushDynamicLayer]
        rw [if_pos hlen, if_pos hone]
        refine ⟨rfl, ?_, ?_, ?_, ?_⟩
        · rw [hSstack]; rfl
        · exact hSgrad
        · exact hSfwd
        · intro _ hF hB
          show setFrontBackIncluded S.tls true = st.tls
          rw [hStls, if_pos hcond, setFrontBackIncluded_setFrontBackIncluded]
          exact setFrontBackIncluded_id st.tls true hF hB
    · by_cases hb : top.key_ = DispatchKey.Autograd ∧ top.prevFwdGradMode_ = some false
      · simp only [if_neg hg, if_pos hb, if_pos hcond]
        rw [hinner]
        dsimp only
        simp only [pushDynamicLayer]
        rw [if_pos hlen, if_pos hone]
        refine ⟨rfl, ?_, ?_, ?_, ?_⟩
        · rw [hSstack]; rfl
        · exact hSgrad
        · exact hSfwd
        · intro _ hF hB
          show setFrontBackIncluded S.tls true = st.tls
          rw [hStls, if_pos hcond, setFrontBackIncluded_setFrontBackIncluded]
          exact setFrontBackIncluded_id st.tls true hF hB
      · simp only [if_neg hg, if_neg hb, if_pos hcond]
        rw [hinner]
        dsimp only
        simp only [pushDynamicLayer]
        rw [if_pos hlen, if_pos hone]
        refine ⟨rfl, ?_, ?_, ?_, ?_⟩
        · rw [hSstack]; rfl
        · exact hSgrad
        · exact hSfwd
        · intro _ hF hB
          show setFrontBackIncluded S.tls true = st.tls
          rw [hStls, if_pos hcond, setFrontBackIncluded_setFrontBackIncluded]
          exact setFrontBackIncluded_id st.tls true hF hB
  | cons r rs =>
    have hcondF : ¬(S.stack.isEmpty = true) := by
      rw [← hSstack]
      simp
    have hnotone : ¬((1 : Int) + S.stack.length = 1) := by
      rw [← hSstack]
      simp only [List.length_cons]
      push_cast
      omega
    by_cases hg : top.key_ = DispatchKey.Autograd ∧ top.prevGradMode_ = some false
    · by_cases hb : top.key_ = DispatchKey.Autograd ∧ top.prevFwdGradMode_ = some false
      · simp only [if_pos hg, if_pos hb, if_neg hcondF]
        rw [hinner]
        dsimp only
        simp only [pushDynamicLayer]
        rw [if_pos hlen, if_neg hnotone]
        refine ⟨rfl, ?_, ?_, ?_, ?_⟩
        · rw [hSstack]
        · exact hSgrad
        · exact hSfwd
        · intro hcontra
          exact absurd hcontra (List.cons_ne_nil r rs)
      · simp only [if_pos hg, if_neg hb, if_neg hcondF]
        rw [hinner]
        dsimp only
        simp only [pushDynamicLayer]
        rw [if_pos hlen, if_neg hnotone]
        refine ⟨rfl, ?_, ?_, ?_, ?_⟩
        · rw [hSstack]
        · exact hSgrad
        · exact hSfwd
        · intro hcontra
          exact absurd hcontra (List.cons_ne_nil r rs)
    · by_cases hb : top.key_ = DispatchKey.Autograd ∧ top.prevFwdGradMode_ = some false
      · simp only [if_neg hg, if_pos hb, if_neg hcondF]
        rw [hinner]
        dsimp only
        simp only [pushDynamicLayer]
        rw [if_pos hlen, if_neg hnotone]
        refine ⟨rfl, ?_, ?_, ?_, ?_⟩
        · rw [hSstack]
        · exact hSgrad
        · exact hSfwd
        · intro hcontra
          exact absurd hcontra (List.cons_ne_nil r rs)
      · simp only [if_neg hg, if_neg hb, if_neg hcondF]
        rw [hinner]
        dsimp only
        simp only [pushDynamicLayer]
        rw [if_pos hlen, if_neg hnotone]
        refine ⟨rfl, ?_, ?_, ?_, ?_⟩
        · rw [hSstack]
        · exact hSgrad
        · exact hSfwd
        · intro hcontra
          exact absurd hcontra (List.cons_ne_nil r rs)

theorem scoped_pop_exception_safety_witness :
    (backFallbackScopedCall stW1
        (fun s => (s, some (FtError.internalAssert "inner failure")))).2 =
      some (FtError.internalAssert "inner failure") ∧
    (backFallbackScopedCall stW1
        (fun s => (s, some (FtError.internalAssert "inner failure")))).1.stack =
      stW1.stack :=
  ⟨(scoped_pop_exception_safety stW1 layerA1 [] (FtError.internalAssert "inner failure")
      (fun s => (s, some (FtError.internalAssert "inner failure")))
      rfl (by decide) (by decide) (fun _ => Or.inl rfl) (fun _ => rfl)).1,
   (scoped_pop_exception_safety stW1 layerA1 [] (FtError.internalAssert "inner failure")
      (fun s => (s, some (FtError.internalAssert "inner failure")))
      rfl (by decide) (by decide) (fun _ => Or.inl rfl) (fun _ => rfl)).2.1⟩
